import Mathlib

/-!
Verification of the PIConGPU analytic field/attribute generation subsystem:
the plane-wave laser profile (`laserPlaneWave.hpp`) and the momentum-component
derived particle attribute with its compile-time eligibility trait.

The laser math is carried out by the source in `double` precision over closed
analytic formulas; it is embedded here over the real numbers.  Piecewise
branch structure, polarization dispatch and the output phase are reproduced
exactly from the source.
-/

namespace PIConGPU

noncomputable section

/-- Run-wide laser configuration: the compile-time simulation parameters read
by `laserLongitudinal` (`DELTA_T`, `SPEED_OF_LIGHT`, `WAVE_LENGTH`,
`AMPLITUDE`, `RAMP_INIT`, `PULSE_LENGTH`, `LASER_NOFOCUS_CONSTANT`,
`LASER_PHASE`, `Polarisation`). -/
structure LaserCfg where
  delta_t : ℝ
  speed_of_light : ℝ
  wave_length : ℝ
  amplitude : ℝ
  ramp_init : ℝ
  pulse_length : ℝ
  laser_nofocus_constant : ℝ
  laser_phase : ℝ
  polarisation : ℕ

/-- Modelled from the spec: the `PolarisationType` enumeration lives in the
laser parameter file, which is not among the sources here; the spec describes
the polarization mode as a closed tagged variant LINEAR_X | LINEAR_Z |
CIRCULAR.  The three modes are represented as distinct natural numbers. -/
def LINEAR_X : ℕ := 1

/-- Modelled from the spec: second polarization mode, see `LINEAR_X`. -/
def LINEAR_Z : ℕ := 2

/-- Modelled from the spec: third polarization mode, see `LINEAR_X`. -/
def CIRCULAR : ℕ := 4

/-- Embedding of `float3_X`: a three-component field vector. -/
@[ext] structure Vec3 where
  x : ℝ
  y : ℝ
  z : ℝ

/-- `runTime = DELTA_T * currentStep` (laserPlaneWave.hpp line 62). -/
def runTime (cfg : LaserCfg) (currentStep : ℕ) : ℝ :=
  cfg.delta_t * currentStep

/-- `mue = 0.5 * RAMP_INIT * PULSE_LENGTH`, used as `endUpramp`
(laserPlaneWave.hpp lines 68, 72). -/
def endUpramp (cfg : LaserCfg) : ℝ :=
  0.5 * cfg.ramp_init * cfg.pulse_length

/-- `startDownramp = mue + LASER_NOFOCUS_CONSTANT` (laserPlaneWave.hpp line 73). -/
def startDownramp (cfg : LaserCfg) : ℝ :=
  endUpramp cfg + cfg.laser_nofocus_constant

/-- Envelope computed by the upramp branch (laserPlaneWave.hpp lines 89-90):
`AMPLITUDE * exp(-0.5 * exponent * exponent)` with
`exponent = (runTime - endUpramp) / PULSE_LENGTH / sqrt(2)`. -/
def uprampEnvelope (cfg : LaserCfg) (t : ℝ) : ℝ :=
  cfg.amplitude *
    Real.exp (-0.5 * ((t - endUpramp cfg) / cfg.pulse_length / Real.sqrt 2) *
      ((t - endUpramp cfg) / cfg.pulse_length / Real.sqrt 2))

/-- Integration correction factor of the upramp branch
(laserPlaneWave.hpp line 91). -/
def uprampCorrection (cfg : LaserCfg) (t : ℝ) : ℝ :=
  (t - endUpramp cfg) / (2 * cfg.pulse_length * cfg.pulse_length)

/-- Envelope computed by the downramp branch (laserPlaneWave.hpp lines 80-83). -/
def downrampEnvelope (cfg : LaserCfg) (t : ℝ) : ℝ :=
  cfg.amplitude *
    Real.exp (-0.5 * ((t - startDownramp cfg) / cfg.pulse_length / Real.sqrt 2) *
      ((t - startDownramp cfg) / cfg.pulse_length / Real.sqrt 2))

/-- Integration correction factor of the downramp branch
(laserPlaneWave.hpp line 84). -/
def downrampCorrection (cfg : LaserCfg) (t : ℝ) : ℝ :=
  (t - startDownramp cfg) / (2 * cfg.pulse_length * cfg.pulse_length)

/-- The branch structure of laserPlaneWave.hpp lines 65-92: envelope starts at
`AMPLITUDE` and the correction factor at 0; the downramp branch is tested
first (`runTime > startDownramp`), then the upramp branch
(`runTime < endUpramp`), otherwise both keep their plateau values. -/
def envelopeIC (cfg : LaserCfg) (t : ℝ) : ℝ × ℝ :=
  if t > startDownramp cfg then
    (downrampEnvelope cfg t, downrampCorrection cfg t)
  else if t < endUpramp cfg then
    (uprampEnvelope cfg t, uprampCorrection cfg t)
  else
    (cfg.amplitude, 0)

/-- Embedding of `laserLongitudinal` (laserPlaneWave.hpp lines 60-119):
computes the envelope and integration correction factor piecewise, the
carrier argument `w * timeOszi + LASER_PHASE` with `w = 2 pi f` and
`f = SPEED_OF_LIGHT / WAVE_LENGTH`, dispatches on the polarization mode, and
returns the field vector together with the output phase, which is set to 0. -/
def laserLongitudinal (cfg : LaserCfg) (currentStep : ℕ) : Vec3 × ℝ :=
  let t := runTime cfg currentStep
  let f := cfg.speed_of_light / cfg.wave_length
  let w := 2 * Real.pi * f
  let envelope := (envelopeIC cfg t).1
  let integrationCorrectionFactor := (envelopeIC cfg t).2
  let timeOszi := t - endUpramp cfg
  let t_and_phase := w * timeOszi + cfg.laser_phase
  let elong : Vec3 :=
    if cfg.polarisation = LINEAR_X then
      ⟨envelope * (Real.sin t_and_phase +
         Real.cos t_and_phase * integrationCorrectionFactor), 0, 0⟩
    else if cfg.polarisation = LINEAR_Z then
      ⟨0, 0, envelope * (Real.sin t_and_phase +
         Real.cos t_and_phase * integrationCorrectionFactor)⟩
    else if cfg.polarisation = CIRCULAR then
      ⟨envelope / Real.sqrt 2 * (Real.sin t_and_phase +
         Real.cos t_and_phase * integrationCorrectionFactor), 0,
       envelope / Real.sqrt 2 * (Real.cos t_and_phase -
         Real.sin t_and_phase * integrationCorrectionFactor)⟩
    else
      ⟨0, 0, 0⟩
  (elong, 0)

/-- Embedding of `laserTransversal` (laserPlaneWave.hpp lines 129-132): the
plane wave applies no transverse shaping, the field vector is returned
unchanged and the three spatial arguments are ignored. -/
def laserTransversal (elong : Vec3) (_posX _posY _posZ : ℝ) : Vec3 :=
  elong

/-- Per-particle field identifiers a species frame can declare. -/
inductive Identifier where
  | position
  | momentum
  | weighting
  | charge
deriving DecidableEq

/-- `RequiredIdentifiers = MakeSeq_t<position<>, momentum>` from the
`SpeciesEligibleForSolver` specialization for `MomentumComponent`. -/
def requiredIdentifiers : List Identifier :=
  [Identifier.position, Identifier.momentum]

/-- Modelled from the spec: `pmacc::traits::HasIdentifiers` is not among the
sources; the spec describes it as a set-containment test between the species'
declared field identifiers and the attribute's required identifiers. -/
def hasIdentifiers (frame : List Identifier) (req : List Identifier) : Bool :=
  req.all fun i => decide (i ∈ frame)

/-- Embedding of the `SpeciesEligibleForSolver` specialization for
`MomentumComponent<T_direction>`: eligibility is `HasIdentifiers` of the
species frame against `RequiredIdentifiers`; the direction parameter plays no
role in the result. -/
def SpeciesEligibleForSolver (T_direction : ℕ) (frame : List Identifier) : Bool :=
  hasIdentifiers frame requiredIdentifiers

namespace MomentumComponent

/-- Embedding of `MomentumComponent::getUnitDimension`: a vector of 7 SI base
dimension exponents, all zero (`std::vector<float_64> unitDimension(7, 0.0)`),
independent of the direction parameter. -/
def getUnitDimension (T_direction : ℕ) : List ℝ :=
  List.replicate 7 0

/-- Embedding of `MomentumComponent::getName`. -/
def getName : String :=
  "particleMomentumComponent"

/-- First static assertion on the direction parameter:
`PMACC_CASSERT_MSG(..., ((T_direction)>=0))`; `T_direction` is a `size_t`. -/
def assertDirectionGE0 (T_direction : ℕ) : Bool :=
  decide (0 ≤ T_direction)

/-- Second static assertion on the direction parameter:
`PMACC_CASSERT_MSG(..., ((T_direction)<3))`. -/
def assertDirectionLT3 (T_direction : ℕ) : Bool :=
  decide (T_direction < 3)

/-- Both compile-time assertions guarding an instantiation of
`MomentumComponent<T_direction>`. -/
def staticAssertsPass (T_direction : ℕ) : Bool :=
  assertDirectionGE0 T_direction && assertDirectionLT3 T_direction

/-- Magnitude of a momentum vector. -/
def momAbs (p : Fin 3 → ℝ) : ℝ :=
  Real.sqrt (p 0 * p 0 + p 1 * p 1 + p 2 * p 2)

/-- Modelled from the spec: the body of `MomentumComponent::operator()` is
only declared in the sources; the spec defines the evaluation as
`p[d] / |p|` when `|p| > 0` and exactly 0 otherwise. -/
def eval (d : Fin 3) (p : Fin 3 → ℝ) : ℝ :=
  if 0 < momAbs p then p d / momAbs p else 0

end MomentumComponent

/-- Concrete well-formed configuration (nonnegative plateau length, LINEAR_X
polarization) used by witnesses. -/
def cfgA : LaserCfg :=
  ⟨1, 1, 1, 1, 2, 1, 1, 0, 1⟩

/-- Concrete configuration with a negative `LASER_NOFOCUS_CONSTANT`, on which
the downramp branch shadows the upramp regime. -/
def cexCfg : LaserCfg :=
  ⟨1, 1, 1, 1, 2, 1, -2, 0, 1⟩

/-- Concrete configuration whose polarization value is none of the three
declared modes. -/
def cfgN : LaserCfg :=
  ⟨1, 1, 1, 1, 2, 1, 1, 0, 0⟩

lemma envShape (A pl e t : ℝ) :
    A * Real.exp (-0.5 * ((t - e) / pl / Real.sqrt 2) * ((t - e) / pl / Real.sqrt 2)) =
    A * Real.exp (-0.5 * ((t - e) / (pl * Real.sqrt 2)) ^ 2) := by
  rw [div_div]
  have h : -0.5 * ((t - e) / (pl * Real.sqrt 2)) * ((t - e) / (pl * Real.sqrt 2)) =
      -0.5 * ((t - e) / (pl * Real.sqrt 2)) ^ 2 := by ring
  rw [h]

lemma icShape (pl e t : ℝ) :
    (t - e) / (2 * pl * pl) = (t - e) / (2 * pl ^ 2) := by
  ring_nf

/-- Claim C1 (amended: the configuration must have a nonnegative plateau
length `LASER_NOFOCUS_CONSTANT`): `laserLongitudinal` computes the envelope
and integration correction factor piecewise over simulated time in three
regimes: Gaussian upramp before `endUpramp`, mirrored Gaussian downramp after
`startDownramp`, and full-amplitude plateau with zero correction factor in
between. -/
theorem laserLongitudinal_regimes (cfg : LaserCfg) (currentStep : ℕ)
    (hnf : 0 ≤ cfg.laser_nofocus_constant) :
    (runTime cfg currentStep < endUpramp cfg →
      envelopeIC cfg (runTime cfg currentStep) =
        (cfg.amplitude *
           Real.exp (-0.5 * ((runTime cfg currentStep - endUpramp cfg) /
             (cfg.pulse_length * Real.sqrt 2)) ^ 2),
         (runTime cfg currentStep - endUpramp cfg) / (2 * cfg.pulse_length ^ 2))) ∧
    (runTime cfg currentStep > startDownramp cfg →
      envelopeIC cfg (runTime cfg currentStep) =
        (cfg.amplitude *
           Real.exp (-0.5 * ((runTime cfg currentStep - startDownramp cfg) /
             (cfg.pulse_length * Real.sqrt 2)) ^ 2),
         (runTime cfg currentStep - startDownramp cfg) / (2 * cfg.pulse_length ^ 2))) ∧
    (¬ runTime cfg currentStep < endUpramp cfg →
     ¬ runTime cfg currentStep > startDownramp cfg →
      envelopeIC cfg (runTime cfg currentStep) = (cfg.amplitude, 0)) := by
  refine ⟨?_, ?_, ?_⟩
  · intro h
    have hes : endUpramp cfg ≤ startDownramp cfg := by
      unfold startDownramp
      linarith
    have hs : ¬ runTime cfg currentStep > startDownramp cfg :=
      not_lt.mpr (le_trans h.le hes)
    unfold envelopeIC
    rw [if_neg hs, if_pos h]
    unfold uprampEnvelope uprampCorrection
    simp only [Prod.mk.injEq]
    exact ⟨envShape _ _ _ _, icShape _ _ _⟩
  · intro h
    unfold envelopeIC
    rw [if_pos h]
    unfold downrampEnvelope downrampCorrection
    simp only [Prod.mk.injEq]
    exact ⟨envShape _ _ _ _, icShape _ _ _⟩
  · intro h1 h2
    unfold envelopeIC
    rw [if_neg h2, if_neg h1]

/-- Claim C1 counterexample: with a negative `LASER_NOFOCUS_CONSTANT` the
simulated time at step 0 lies in the claimed upramp regime
(`t < endUpramp`), yet the integration correction factor computed by the code
is the downramp one, not the claimed upramp expression. -/
theorem laserLongitudinal_regimes_cex :
    runTime cexCfg 0 < endUpramp cexCfg ∧
    (envelopeIC cexCfg (runTime cexCfg 0)).2 ≠
      (runTime cexCfg 0 - endUpramp cexCfg) / (2 * cexCfg.pulse_length ^ 2) := by
  have h0 : runTime cexCfg 0 = 0 := by
    simp [runTime, cexCfg]
  have he : endUpramp cexCfg = 1 := by
    norm_num [endUpramp, cexCfg]
  have hs : startDownramp cexCfg = -1 := by
    norm_num [startDownramp, endUpramp, cexCfg]
  refine ⟨by rw [h0, he]; norm_num, ?_⟩
  rw [h0]
  unfold envelopeIC
  rw [if_pos (show (0:ℝ) > startDownramp cexCfg by rw [hs]; norm_num)]
  unfold downrampCorrection
  rw [hs, he]
  norm_num [cexCfg]

/-- Witness for the amended claim C1 at a concrete configuration. -/
theorem laserLongitudinal_regimes_witness :
    0 ≤ cfgA.laser_nofocus_constant ∧
    ((runTime cfgA 0 < endUpramp cfgA →
      envelopeIC cfgA (runTime cfgA 0) =
        (cfgA.amplitude *
           Real.exp (-0.5 * ((runTime cfgA 0 - endUpramp cfgA) /
             (cfgA.pulse_length * Real.sqrt 2)) ^ 2),
         (runTime cfgA 0 - endUpramp cfgA) / (2 * cfgA.pulse_length ^ 2))) ∧
    (runTime cfgA 0 > startDownramp cfgA →
      envelopeIC cfgA (runTime cfgA 0) =
        (cfgA.amplitude *
           Real.exp (-0.5 * ((runTime cfgA 0 - startDownramp cfgA) /
             (cfgA.pulse_length * Real.sqrt 2)) ^ 2),
         (runTime cfgA 0 - startDownramp cfgA) / (2 * cfgA.pulse_length ^ 2))) ∧
    (¬ runTime cfgA 0 < endUpramp cfgA →
     ¬ runTime cfgA 0 > startDownramp cfgA →
      envelopeIC cfgA (runTime cfgA 0) = (cfgA.amplitude, 0))) :=
  ⟨by norm_num [cfgA], laserLongitudinal_regimes cfgA 0 (by norm_num [cfgA])⟩

lemma uprampEnvelope_continuous (cfg : LaserCfg) :
    Continuous (uprampEnvelope cfg) := by
  unfold uprampEnvelope
  have hq : Continuous fun t : ℝ =>
      (t - endUpramp cfg) / cfg.pulse_length / Real.sqrt 2 :=
    ((continuous_id.sub continuous_const).div_const _).div_const _
  exact continuous_const.mul (Real.continuous_exp.comp
    ((continuous_const.mul hq).mul hq))

lemma downrampEnvelope_continuous (cfg : LaserCfg) :
    Continuous (downrampEnvelope cfg) := by
  unfold downrampEnvelope
  have hq : Continuous fun t : ℝ =>
      (t - startDownramp cfg) / cfg.pulse_length / Real.sqrt 2 :=
    ((continuous_id.sub continuous_const).div_const _).div_const _
  exact continuous_const.mul (Real.continuous_exp.comp
    ((continuous_const.mul hq).mul hq))

lemma uprampEnvelope_boundary (cfg : LaserCfg) :
    uprampEnvelope cfg (endUpramp cfg) = cfg.amplitude := by
  unfold uprampEnvelope
  simp

lemma downrampEnvelope_boundary (cfg : LaserCfg) :
    downrampEnvelope cfg (startDownramp cfg) = cfg.amplitude := by
  unfold downrampEnvelope
  simp

/-- Claim C3: with a nonnegative plateau length, the plateau branch applies at
both transition points inclusive (envelope `amplitude`, correction factor 0),
and the envelope is continuous there: the one-sided limits of the upramp
formula at `endUpramp` and of the downramp formula at `startDownramp` both
equal `amplitude`. -/
theorem laserLongitudinal_boundary_plateau (cfg : LaserCfg)
    (hnf : 0 ≤ cfg.laser_nofocus_constant) :
    envelopeIC cfg (endUpramp cfg) = (cfg.amplitude, 0) ∧
    envelopeIC cfg (startDownramp cfg) = (cfg.amplitude, 0) ∧
    Filter.Tendsto (uprampEnvelope cfg)
      (nhdsWithin (endUpramp cfg) (Set.Iio (endUpramp cfg)))
      (nhds cfg.amplitude) ∧
    Filter.Tendsto (downrampEnvelope cfg)
      (nhdsWithin (startDownramp cfg) (Set.Ioi (startDownramp cfg)))
      (nhds cfg.amplitude) := by
  have hes : endUpramp cfg ≤ startDownramp cfg := by
    unfold startDownramp
    linarith
  refine ⟨?_, ?_, ?_, ?_⟩
  · unfold envelopeIC
    rw [if_neg (not_lt.mpr hes), if_neg (lt_irrefl _)]
  · unfold envelopeIC
    rw [if_neg (lt_irrefl _), if_neg (not_lt.mpr hes)]
  · have h1 := (uprampEnvelope_continuous cfg).tendsto (endUpramp cfg)
    rw [uprampEnvelope_boundary] at h1
    exact h1.mono_left nhdsWithin_le_nhds
  · have h1 := (downrampEnvelope_continuous cfg).tendsto (startDownramp cfg)
    rw [downrampEnvelope_boundary] at h1
    exact h1.mono_left nhdsWithin_le_nhds

/-- Witness for claim C3 at a concrete configuration. -/
theorem laserLongitudinal_boundary_plateau_witness :
    0 ≤ cfgA.laser_nofocus_constant ∧
    (envelopeIC cfgA (endUpramp cfgA) = (cfgA.amplitude, 0) ∧
    envelopeIC cfgA (startDownramp cfgA) = (cfgA.amplitude, 0) ∧
    Filter.Tendsto (uprampEnvelope cfgA)
      (nhdsWithin (endUpramp cfgA) (Set.Iio (endUpramp cfgA)))
      (nhds cfgA.amplitude) ∧
    Filter.Tendsto (downrampEnvelope cfgA)
      (nhdsWithin (startDownramp cfgA) (Set.Ioi (startDownramp cfgA)))
      (nhds cfgA.amplitude)) :=
  ⟨by norm_num [cfgA], laserLongitudinal_boundary_plateau cfgA (by norm_num [cfgA])⟩

/-- Claim C6: for every configuration and timestep the output phase parameter
returned by `laserLongitudinal` is exactly 0, in every temporal regime and for
every polarization mode. -/
theorem laserLongitudinal_phase_zero (cfg : LaserCfg) (currentStep : ℕ) :
    (laserLongitudinal cfg currentStep).2 = 0 :=
  rfl

/-- Claim C7: `laserTransversal` returns the field vector unchanged; the
spatial coordinates have no effect on the result. -/
theorem laserTransversal_id (elong : Vec3) (posX posY posZ : ℝ) :
    laserTransversal elong posX posY posZ = elong :=
  rfl

/-- Claim C8: `getUnitDimension` returns a vector of exactly 7 entries, all
equal to 0, for every direction parameter. -/
theorem getUnitDimension_zero (d : ℕ) :
    MomentumComponent.getUnitDimension d = [0, 0, 0, 0, 0, 0, 0] ∧
    (MomentumComponent.getUnitDimension d).length = 7 :=
  ⟨rfl, rfl⟩

/-- Claim C9: the static assertions guarding `MomentumComponent<T_direction>`
pass exactly when the direction parameter lies in [0, 3): directions 0, 1, 2
pass both assertions and every direction outside [0, 3) fails them. -/
theorem staticAssertsPass_iff (d : ℕ) :
    MomentumComponent.staticAssertsPass d = true ↔ d < 3 := by
  simp [MomentumComponent.staticAssertsPass, MomentumComponent.assertDirectionGE0,
    MomentumComponent.assertDirectionLT3, Nat.zero_le]

/-- Claim C5: a species is eligible for the momentum-component attribute, for
any axis, exactly when its frame declares both the position and the momentum
identifiers. -/
theorem speciesEligible_iff (d : ℕ) (frame : List Identifier) :
    SpeciesEligibleForSolver d frame = true ↔
      (Identifier.position ∈ frame ∧ Identifier.momentum ∈ frame) := by
  simp [SpeciesEligibleForSolver, hasIdentifiers, requiredIdentifiers]

/-- Claim C2: `laserLongitudinal` assembles the field vector by polarization
mode using the carrier phase `2 pi c / wavelength * (t - endUpramp) +
phaseOffset`: LINEAR_X fills only the x component, LINEAR_Z only the z
component with the same formula, and CIRCULAR fills x and z with the
amplitude scaled by `1 / sqrt 2`. -/
theorem laserLongitudinal_polarisation (cfg : LaserCfg) (currentStep : ℕ) :
    (cfg.polarisation = LINEAR_X →
      (laserLongitudinal cfg currentStep).1 =
        ⟨(envelopeIC cfg (runTime cfg currentStep)).1 *
           (Real.sin (2 * Real.pi * cfg.speed_of_light / cfg.wave_length *
              (runTime cfg currentStep - endUpramp cfg) + cfg.laser_phase) +
            Real.cos (2 * Real.pi * cfg.speed_of_light / cfg.wave_length *
              (runTime cfg currentStep - endUpramp cfg) + cfg.laser_phase) *
            (envelopeIC cfg (runTime cfg currentStep)).2), 0, 0⟩) ∧
    (cfg.polarisation = LINEAR_Z →
      (laserLongitudinal cfg currentStep).1 =
        ⟨0, 0, (envelopeIC cfg (runTime cfg currentStep)).1 *
           (Real.sin (2 * Real.pi * cfg.speed_of_light / cfg.wave_length *
              (runTime cfg currentStep - endUpramp cfg) + cfg.laser_phase) +
            Real.cos (2 * Real.pi * cfg.speed_of_light / cfg.wave_length *
              (runTime cfg currentStep - endUpramp cfg) + cfg.laser_phase) *
            (envelopeIC cfg (runTime cfg currentStep)).2)⟩) ∧
    (cfg.polarisation = CIRCULAR →
      (laserLongitudinal cfg currentStep).1 =
        ⟨(envelopeIC cfg (runTime cfg currentStep)).1 / Real.sqrt 2 *
           (Real.sin (2 * Real.pi * cfg.speed_of_light / cfg.wave_length *
              (runTime cfg currentStep - endUpramp cfg) + cfg.laser_phase) +
            Real.cos (2 * Real.pi * cfg.speed_of_light / cfg.wave_length *
              (runTime cfg currentStep - endUpramp cfg) + cfg.laser_phase) *
            (envelopeIC cfg (runTime cfg currentStep)).2), 0,
         (envelopeIC cfg (runTime cfg currentStep)).1 / Real.sqrt 2 *
           (Real.cos (2 * Real.pi * cfg.speed_of_light / cfg.wave_length *
              (runTime cfg currentStep - endUpramp cfg) + cfg.laser_phase) -
            Real.sin (2 * Real.pi * cfg.speed_of_light / cfg.wave_length *
              (runTime cfg currentStep - endUpramp cfg) + cfg.laser_phase) *
            (envelopeIC cfg (runTime cfg currentStep)).2)⟩) := by
  have harg : 2 * Real.pi * (cfg.speed_of_light / cfg.wave_length) *
      (runTime cfg currentStep - endUpramp cfg) + cfg.laser_phase =
      2 * Real.pi * cfg.speed_of_light / cfg.wave_length *
      (runTime cfg currentStep - endUpramp cfg) + cfg.laser_phase := by
    ring
  refine ⟨fun h => ?_, fun h => ?_, fun h => ?_⟩
  · unfold laserLongitudinal
    rw [h]
    dsimp only
    rw [if_pos rfl, harg]
  · unfold laserLongitudinal
    rw [h]
    dsimp only
    rw [if_neg (by decide : ¬ LINEAR_Z = LINEAR_X), if_pos rfl, harg]
  · unfold laserLongitudinal
    rw [h]
    dsimp only
    rw [if_neg (by decide : ¬ CIRCULAR = LINEAR_X),
      if_neg (by decide : ¬ CIRCULAR = LINEAR_Z), if_pos rfl, harg]

/-- Witness for claim C2 at a concrete LINEAR_X configuration. -/
theorem laserLongitudinal_polarisation_witness :
    cfgA.polarisation = LINEAR_X ∧
    (laserLongitudinal cfgA 0).1 =
      ⟨(envelopeIC cfgA (runTime cfgA 0)).1 *
         (Real.sin (2 * Real.pi * cfgA.speed_of_light / cfgA.wave_length *
            (runTime cfgA 0 - endUpramp cfgA) + cfgA.laser_phase) +
          Real.cos (2 * Real.pi * cfgA.speed_of_light / cfgA.wave_length *
            (runTime cfgA 0 - endUpramp cfgA) + cfgA.laser_phase) *
          (envelopeIC cfgA (runTime cfgA 0)).2), 0, 0⟩ :=
  ⟨rfl, (laserLongitudinal_polarisation cfgA 0).1 rfl⟩

/-- Claim C10: the field vector returned by `laserLongitudinal` always has
zero y component, and a polarization value that is none of LINEAR_X,
LINEAR_Z, CIRCULAR yields the all-zero vector. -/
theorem laserLongitudinal_y_component (cfg : LaserCfg) (currentStep : ℕ) :
    (laserLongitudinal cfg currentStep).1.y = 0 ∧
    (cfg.polarisation ≠ LINEAR_X → cfg.polarisation ≠ LINEAR_Z →
     cfg.polarisation ≠ CIRCULAR →
      (laserLongitudinal cfg currentStep).1 = ⟨0, 0, 0⟩) := by
  constructor
  · unfold laserLongitudinal
    dsimp only
    split
    · rfl
    · split
      · rfl
      · split
        · rfl
        · rfl
  · intro h1 h2 h3
    unfold laserLongitudinal
    dsimp only
    rw [if_neg h1, if_neg h2, if_neg h3]

/-- Witness for claim C10 at a configuration whose polarization value is none
of the three declared modes. -/
theorem laserLongitudinal_y_component_witness :
    (laserLongitudinal cfgN 0).1.y = 0 ∧ (laserLongitudinal cfgN 0).1 = ⟨0, 0, 0⟩ :=
  ⟨(laserLongitudinal_y_component cfgN 0).1,
   (laserLongitudinal_y_component cfgN 0).2 (by decide) (by decide) (by decide)⟩

/-- Claim C4: the momentum-component evaluation returns `p[d] / |p|` when
`|p| > 0`, returns exactly 0 on the zero momentum vector, and its result
always lies in [-1, 1]. -/
theorem momentumComponent_eval_props (d : Fin 3) (p : Fin 3 → ℝ) :
    (0 < MomentumComponent.momAbs p →
      MomentumComponent.eval d p = p d / MomentumComponent.momAbs p) ∧
    ((∀ i, p i = 0) → MomentumComponent.eval d p = 0) ∧
    (-1 ≤ MomentumComponent.eval d p ∧ MomentumComponent.eval d p ≤ 1) := by
  refine ⟨fun h => ?_, fun h => ?_, ?_⟩
  · unfold MomentumComponent.eval
    rw [if_pos h]
  · unfold MomentumComponent.eval MomentumComponent.momAbs
    simp [h, Real.sqrt_zero]
  · by_cases h : 0 < MomentumComponent.momAbs p
    · have key : p d * p d ≤ p 0 * p 0 + p 1 * p 1 + p 2 * p 2 := by
        fin_cases d
        · show p 0 * p 0 ≤ p 0 * p 0 + p 1 * p 1 + p 2 * p 2
          linarith [mul_self_nonneg (p 1), mul_self_nonneg (p 2)]
        · show p 1 * p 1 ≤ p 0 * p 0 + p 1 * p 1 + p 2 * p 2
          linarith [mul_self_nonneg (p 0), mul_self_nonneg (p 2)]
        · show p 2 * p 2 ≤ p 0 * p 0 + p 1 * p 1 + p 2 * p 2
          linarith [mul_self_nonneg (p 0), mul_self_nonneg (p 1)]
      have habs : |p d| ≤ MomentumComponent.momAbs p := by
        rw [← Real.sqrt_mul_self_eq_abs]
        unfold MomentumComponent.momAbs
        exact Real.sqrt_le_sqrt key
      have hdiv : |MomentumComponent.eval d p| ≤ 1 := by
        unfold MomentumComponent.eval
        rw [if_pos h, abs_div, abs_of_pos h]
        exact (div_le_one h).mpr habs
      exact ⟨neg_le_of_abs_le hdiv, le_of_abs_le hdiv⟩
    · unfold MomentumComponent.eval
      rw [if_neg h]
      norm_num

/-- Witness for claim C4 at concrete momentum vectors. -/
theorem momentumComponent_eval_props_witness :
    (0 < MomentumComponent.momAbs (fun _ => 1) ∧
     MomentumComponent.eval 0 (fun _ => 1) =
       (1 : ℝ) / MomentumComponent.momAbs (fun _ => 1)) ∧
    MomentumComponent.eval 0 (fun _ => 0) = 0 := by
  have hpos : 0 < MomentumComponent.momAbs (fun _ => (1:ℝ)) := by
    unfold MomentumComponent.momAbs
    exact Real.sqrt_pos.mpr (by norm_num)
  exact ⟨⟨hpos, (momentumComponent_eval_props 0 (fun _ => 1)).1 hpos⟩,
    (momentumComponent_eval_props 0 (fun _ => 0)).2.1 (fun i => rfl)⟩

end

end PIConGPU
